import Mathlib

/-!
Shallow embedding of the streaming-audio client of this repository:
the `useWebSocketAudio` hook in `src/src/websocket-client.tsx` (WAV container
encoder, playback queue, capture pipeline, websocket session) and the µ-law
encoder of the Twilio debug variant.  Pure functions are translated directly;
the event-driven session is embedded as a step function over an explicit state
record, with the browser callbacks (socket open / message / close, audio-process
frames, decode and playback completions) as an explicit event type.
-/

namespace WsClient

/-! ## µ-law encoder (Twilio debug variant)

JS source:
```
const encodeMulaw = (pcm) => {
  const bias = 0x84;
  const clip = 32635;
  const sign = (pcm & 0x8000) >> 8;
  if (sign !== 0) pcm = -pcm;
  if (pcm > clip) pcm = clip;
  pcm += bias;
  const exponent = Math.floor(Math.log(pcm) / Math.log(2));
  const mantissa = (pcm >> (exponent - 3)) & 0x0f;
  return ~(sign | (exponent << 4) | mantissa);
};
```
Embedding notes, faithful on the claimed domain `-32768 ≤ pcm ≤ 32767`:
`(pcm & 0x8000) >> 8` over 32-bit two-complement operands equals `0x80`
exactly when `pcm < 0` (for `-32768 ≤ pcm ≤ 32767`);
`Math.floor(Math.log(p) / Math.log(2))` in double precision equals
`Nat.log2 p` for every integer `132 ≤ p ≤ 32768` (powers of two give an exact
quotient, and for every non-power in that range the exact quotient is at least
4.4e-5 away from an integer, far beyond double rounding error); JS `~` on a
32-bit integer value `x` is `-x - 1`. -/
def encodeMulaw (pcm : Int) : Int :=
  let sign : Nat := if pcm < 0 then 0x80 else 0
  let pcm1 : Int := if pcm < 0 then -pcm else pcm
  let pcm2 : Int := if pcm1 > 32635 then 32635 else pcm1
  let pcm3 : Nat := (pcm2 + 132).toNat
  let exponent : Nat := Nat.log2 pcm3
  let mantissa : Nat := (pcm3 >>> (exponent - 3)) &&& 0x0f
  let packed : Nat := (sign ||| (exponent <<< 4)) ||| mantissa
  let inverted : Int := -((packed : Int)) - 1
  inverted

/-- The biased magnitude of a sample: magnitude clipped to 32635, plus the
bias constant 132. -/
def mulawBiased (pcm : Int) : Nat :=
  min pcm.natAbs 32635 + 132

/-- The packed µ-law byte before inversion: sign bit, exponent, mantissa. -/
def mulawPacked (pcm : Int) : Nat :=
  let e : Nat := Nat.log2 (mulawBiased pcm)
  ((if pcm < 0 then 0x80 else 0) ||| (e <<< 4)) ||| ((mulawBiased pcm >>> (e - 3)) &&& 0x0f)

/-- The reference algorithm exactly as the specification words it: extract the
sign and negate negative samples, clip the magnitude to at most 32635, add the
bias 132 before exponent extraction, compute the exponent as the floor of the
base-2 logarithm of the biased magnitude, derive the 4-bit mantissa by
right-shifting the biased magnitude by `exponent - 3` and masking to 4 bits,
pack sign, exponent and mantissa into one byte, then bitwise-invert that
byte. -/
def mulawSpecByte (pcm : Int) : Nat :=
  let sign : Nat := if pcm < 0 then 0x80 else 0
  let magnitude : Nat := min pcm.natAbs 32635
  let biased : Nat := magnitude + 132
  let exponent : Nat := Nat.log2 biased
  let mantissa : Nat := (biased >>> (exponent - 3)) &&& 0x0f
  ((sign ||| (exponent <<< 4)) ||| mantissa) ^^^ 0xff

theorem mulawSpecByte_eq (pcm : Int) :
    mulawSpecByte pcm = mulawPacked pcm ^^^ 0xff := by
  simp [mulawSpecByte, mulawPacked, mulawBiased]

theorem encodeMulaw_eq_packed (pcm : Int) :
    encodeMulaw pcm = -((mulawPacked pcm : Int)) - 1 := by
  have hb : ((if (if pcm < 0 then -pcm else pcm) > 32635 then (32635 : Int)
      else if pcm < 0 then -pcm else pcm) + 132).toNat = mulawBiased pcm := by
    simp only [mulawBiased, Nat.min_def]
    split_ifs <;> omega
  simp only [encodeMulaw, mulawPacked]
  rw [hb]

theorem mulawBiased_le (pcm : Int) : mulawBiased pcm ≤ 32767 := by
  simp only [mulawBiased, Nat.min_def]
  split_ifs <;> omega

theorem mulawBiased_ge (pcm : Int) : 132 ≤ mulawBiased pcm := by
  simp [mulawBiased]

theorem mulawPacked_lt_256 (pcm : Int) : mulawPacked pcm < 256 := by
  have he : Nat.log2 (mulawBiased pcm) < 15 := by
    rw [Nat.log2_lt (by have := mulawBiased_ge pcm; omega)]
    have := mulawBiased_le pcm
    omega
  have h1 : (if pcm < 0 then (0x80 : Nat) else 0) < 2 ^ 8 := by split_ifs <;> norm_num
  have h2 : Nat.log2 (mulawBiased pcm) <<< 4 < 2 ^ 8 := by
    have : Nat.log2 (mulawBiased pcm) <<< 4 = Nat.log2 (mulawBiased pcm) * 16 := by
      simp [Nat.shiftLeft_eq]
    omega
  have h3 : (mulawBiased pcm >>> (Nat.log2 (mulawBiased pcm) - 3)) &&& 0x0f < 2 ^ 8 := by
    have : (mulawBiased pcm >>> (Nat.log2 (mulawBiased pcm) - 3)) &&& 0x0f ≤ 0x0f :=
      Nat.and_le_right
    omega
  have hor1 := Nat.or_lt_two_pow h1 h2
  have hor2 := Nat.or_lt_two_pow hor1 h3
  simpa [mulawPacked] using hor2

set_option maxRecDepth 2000 in
theorem xor_255_eq (p : Nat) (hp : p < 256) : p ^^^ 255 = 255 - p := by
  revert hp
  revert p
  decide

/-- Claim C5: for every 16-bit signed PCM input, `encodeMulaw` follows the
specified reference algorithm (sign extraction and negation of negatives,
clipping to 32635, bias 132 added before exponent extraction, exponent as the
floor of the base-2 log of the biased magnitude, 4-bit mantissa obtained by
shifting right by `exponent - 3` and masking, packing of sign/exponent/mantissa
into one byte, bitwise inversion), and the `pcm = 0` case is safe because the
bias makes the log argument at least 132.  The JS `~` operates on the 32-bit
value, so the produced byte is the returned value reduced mod 256. -/
theorem encodeMulaw_follows_reference (pcm : Int)
    (h1 : -32768 ≤ pcm) (h2 : pcm ≤ 32767) :
    encodeMulaw pcm % 256 = mulawSpecByte pcm ∧ 132 ≤ mulawBiased pcm := by
  constructor
  · rw [encodeMulaw_eq_packed, mulawSpecByte_eq, xor_255_eq _ (mulawPacked_lt_256 pcm)]
    have hlt := mulawPacked_lt_256 pcm
    omega
  · exact mulawBiased_ge pcm

/-- Witness for `encodeMulaw_follows_reference` at the concrete sample 0. -/
theorem encodeMulaw_follows_reference_witness :
    (-32768 : Int) ≤ 0 ∧ (0 : Int) ≤ 32767 ∧ encodeMulaw 0 % 256 = mulawSpecByte 0 :=
  ⟨by norm_num, by norm_num, (encodeMulaw_follows_reference 0 (by norm_num) (by norm_num)).1⟩

/-- Claim C6 counterexample: at the 16-bit PCM input 0 the encoder returns
-121 (the JS bitwise NOT of the packed byte 120 taken over 32 bits), which is
not an integer in the range 0..255, so the claim that the returned value is a
byte in 0..255 is false. -/
theorem encodeMulaw_not_byte :
    encodeMulaw 0 = -121 ∧ ¬(0 ≤ encodeMulaw 0 ∧ encodeMulaw 0 ≤ 255) := by
  have hb : mulawBiased 0 = 132 := by norm_num [mulawBiased]
  have hl : Nat.log2 132 = 7 := by norm_num [Nat.log2]
  have hp : mulawPacked 0 = 120 := by
    simp only [mulawPacked, hb, hl]
    decide
  have h : encodeMulaw 0 = -121 := by
    rw [encodeMulaw_eq_packed, hp]
    norm_num
  refine ⟨h, ?_⟩
  rw [h]
  norm_num

/-- Claim C6 amended: for every 16-bit signed PCM input in -32768..32767 the
value returned by the µ-law encoder is a negative integer in -256..-1 (the JS
32-bit bitwise NOT of the packed byte); the byte actually stored by the
`Uint8Array` consumer is its residue mod 256, which lies in 0..255. -/
theorem encodeMulaw_output_range_amended (pcm : Int)
    (h1 : -32768 ≤ pcm) (h2 : pcm ≤ 32767) :
    (-256 ≤ encodeMulaw pcm ∧ encodeMulaw pcm < 0) ∧
    (0 ≤ encodeMulaw pcm % 256 ∧ encodeMulaw pcm % 256 < 256) := by
  rw [encodeMulaw_eq_packed]
  have hlt := mulawPacked_lt_256 pcm
  constructor
  · omega
  · omega

/-- Witness for `encodeMulaw_output_range_amended` at the concrete sample
-1000. -/
theorem encodeMulaw_output_range_amended_witness :
    (-32768 : Int) ≤ -1000 ∧ (-1000 : Int) ≤ 32767 ∧
    (-256 ≤ encodeMulaw (-1000) ∧ encodeMulaw (-1000) < 0) :=
  ⟨by norm_num, by norm_num, (encodeMulaw_output_range_amended (-1000) (by norm_num) (by norm_num)).1⟩

/-! ## WAV container encoder (`encodeWAV` in `src/src/websocket-client.tsx`)

JS source writes into a `DataView` over a buffer of `44 + dataSize` bytes:
`writeString` stores the char codes of a tag, `setUint32 (..., true)` and
`setUint16 (..., true)` store little-endian and truncate the value mod `2^32` /
`2^16` (the byte-wise `% 256` of the helpers below), the float divisions in
`byteRate` and `blockAlign` truncate toward zero on these non-negative
operands exactly like `Nat` division, and `setUint8` stores `pcmData[i]`
mod 256 (the identity on `Uint8Array` input).  Byte buffers are embedded as
`List Nat` of byte values. -/

def u16le (n : Nat) : List Nat :=
  [n % 256, n / 256 % 256]

def u32le (n : Nat) : List Nat :=
  [n % 256, n / 256 % 256, n / 65536 % 256, n / 16777216 % 256]

/-- The char codes written by `writeString(view, 0, "RIFF")`. -/
def riffTag : List Nat := [82, 73, 70, 70]

/-- The char codes of "WAVE". -/
def waveTag : List Nat := [87, 65, 86, 69]

/-- The char codes of "fmt " (with the trailing space). -/
def fmtTag : List Nat := [102, 109, 116, 32]

/-- The char codes of "data". -/
def dataTag : List Nat := [100, 97, 116, 97]

def encodeWAV (pcmData : List Nat) (sampleRate numChannels bitsPerSample : Nat) :
    List Nat :=
  let byteRate := sampleRate * numChannels * bitsPerSample / 8
  let blockAlign := numChannels * bitsPerSample / 8
  let dataSize := pcmData.length
  riffTag ++ u32le (36 + dataSize) ++ waveTag ++ fmtTag ++ u32le 16 ++ u16le 1
    ++ u16le numChannels ++ u32le sampleRate ++ u32le byteRate ++ u16le blockAlign
    ++ u16le bitsPerSample ++ dataTag ++ u32le dataSize
    ++ pcmData.map (fun b => b % 256)

/-- The decoded parameters and payload of a WAV byte buffer. -/
structure WavHeader where
  sampleRate : Nat
  numChannels : Nat
  bitsPerSample : Nat
  payload : List Nat
deriving Repr, DecidableEq

/-- Modelled from the spec: `decodeWavHeader` is named in §8 ("WAV header
round-trip: for any (sampleRate, channels, bitsPerSample, PCM bytes),
`decodeWavHeader(encodeWAV(...))` recovers the exact parameters and
byte-identical payload") but no decoder exists under `src/`.  Following the
header layout of §4.1, it destructures the canonical 44-byte RIFF/WAVE header,
checks the "RIFF"/"WAVE"/"fmt "/"data" tags, the fixed 16-byte fmt subchunk
size, PCM format 1 and the two size fields, and returns the three numeric
parameters and the payload after the header. -/
def decodeWavHeader (bs : List Nat) : Option WavHeader :=
  match bs with
  | t0 :: t1 :: t2 :: t3 :: s0 :: s1 :: s2 :: s3 :: w0 :: w1 :: w2 :: w3 ::
    f0 :: f1 :: f2 :: f3 :: g0 :: g1 :: g2 :: g3 :: q0 :: q1 :: c0 :: c1 ::
    r0 :: r1 :: r2 :: r3 :: _b0 :: _b1 :: _b2 :: _b3 :: a0 :: a1 :: p0 :: p1 ::
    e0 :: e1 :: e2 :: e3 :: d0 :: d1 :: d2 :: d3 :: payload =>
    if [t0, t1, t2, t3] = riffTag ∧ [w0, w1, w2, w3] = waveTag
        ∧ [f0, f1, f2, f3] = fmtTag ∧ [e0, e1, e2, e3] = dataTag
        ∧ g0 + 256 * g1 + 65536 * g2 + 16777216 * g3 = 16
        ∧ q0 + 256 * q1 = 1
        ∧ s0 + 256 * s1 + 65536 * s2 + 16777216 * s3 = 36 + payload.length
        ∧ d0 + 256 * d1 + 65536 * d2 + 16777216 * d3 = payload.length
        ∧ a0 + 256 * a1 = (c0 + 256 * c1) * (p0 + 256 * p1) / 8 then
      some ⟨r0 + 256 * r1 + 65536 * r2 + 16777216 * r3, c0 + 256 * c1,
        p0 + 256 * p1, payload⟩
    else none
  | _ => none

theorem map_mod_256_eq (l : List Nat) (h : ∀ b ∈ l, b < 256) :
    l.map (fun b => b % 256) = l := by
  induction l with
  | nil => rfl
  | cons x xs ih =>
    simp only [List.map_cons, List.cons.injEq]
    constructor
    · exact Nat.mod_eq_of_lt (h x (by simp))
    · exact ih (fun b hb => h b (by simp [hb]))

set_option maxRecDepth 10000 in
/-- Claim C4: for in-range sample rate, channel count and bits-per-sample
(with `8 ∣ channels * bitsPerSample` so the byte-rate and block-align
divisions are exact) and any PCM byte buffer, `encodeWAV` returns exactly a
44-byte RIFF/WAVE header (chunk id "RIFF", total size `36 + dataSize`,
"WAVE", a 16-byte "fmt " subchunk with PCM format 1, the channel count,
sample rate, byte rate `sampleRate * channels * bitsPerSample / 8`, block
align `channels * bitsPerSample / 8` and bits per sample, then "data" and
the data length) followed by the input PCM bytes unmodified, and decoding
the header recovers the exact parameters and the byte-identical payload. -/
theorem encodeWAV_roundtrip (pcmData : List Nat)
    (sampleRate numChannels bitsPerSample : Nat)
    (hsr : sampleRate < 4294967296)
    (hch : numChannels < 65536)
    (hbp : bitsPerSample < 65536)
    (hbr : sampleRate * numChannels * bitsPerSample / 8 < 4294967296)
    (hba : numChannels * bitsPerSample / 8 < 65536)
    (hdiv : 8 ∣ numChannels * bitsPerSample)
    (hlen : 36 + pcmData.length < 4294967296)
    (hpcm : ∀ b ∈ pcmData, b < 256) :
    (encodeWAV pcmData sampleRate numChannels bitsPerSample).length = 44 + pcmData.length
    ∧ (encodeWAV pcmData sampleRate numChannels bitsPerSample).take 4 = riffTag
    ∧ (encodeWAV pcmData sampleRate numChannels bitsPerSample).drop 44 = pcmData
    ∧ 8 * (numChannels * bitsPerSample / 8) = numChannels * bitsPerSample
    ∧ 8 * (sampleRate * numChannels * bitsPerSample / 8)
        = sampleRate * numChannels * bitsPerSample
    ∧ decodeWavHeader (encodeWAV pcmData sampleRate numChannels bitsPerSample)
        = some ⟨sampleRate, numChannels, bitsPerSample, pcmData⟩ := by
  have hmap : pcmData.map (fun b => b % 256) = pcmData := map_mod_256_eq pcmData hpcm
  have hsplit : encodeWAV pcmData sampleRate numChannels bitsPerSample
      = (riffTag ++ u32le (36 + pcmData.length) ++ waveTag ++ fmtTag ++ u32le 16
        ++ u16le 1 ++ u16le numChannels ++ u32le sampleRate
        ++ u32le (sampleRate * numChannels * bitsPerSample / 8)
        ++ u16le (numChannels * bitsPerSample / 8) ++ u16le bitsPerSample ++ dataTag
        ++ u32le pcmData.length) ++ pcmData.map (fun b => b % 256) := rfl
  have hA : (riffTag ++ u32le (36 + pcmData.length) ++ waveTag ++ fmtTag ++ u32le 16
        ++ u16le 1 ++ u16le numChannels ++ u32le sampleRate
        ++ u32le (sampleRate * numChannels * bitsPerSample / 8)
        ++ u16le (numChannels * bitsPerSample / 8) ++ u16le bitsPerSample ++ dataTag
        ++ u32le pcmData.length).length = 44 := by
    simp [riffTag, waveTag, fmtTag, dataTag, u32le, u16le]
  have hbyte : 8 * (sampleRate * numChannels * bitsPerSample / 8)
      = sampleRate * numChannels * bitsPerSample := by
    obtain ⟨k, hk⟩ := hdiv
    rw [mul_assoc, hk, show sampleRate * (8 * k) = 8 * (sampleRate * k) by ring,
      Nat.mul_div_cancel_left _ (by norm_num)]
  refine ⟨?_, ?_, ?_, by omega, hbyte, ?_⟩
  · rw [hsplit, hmap, List.length_append, hA]
  · rw [hsplit, hmap]
    simp only [List.append_assoc]
    exact List.take_left' (by simp [riffTag])
  · rw [hsplit, hmap]
    exact List.drop_left' hA
  · have hdec : decodeWavHeader (encodeWAV pcmData sampleRate numChannels bitsPerSample)
        = some ⟨sampleRate, numChannels, bitsPerSample, pcmData.map (fun b => b % 256)⟩ := by
      simp only [encodeWAV, u32le, u16le, riffTag, waveTag, fmtTag, dataTag,
        List.cons_append, List.nil_append, List.append_assoc]
      norm_num
      simp only [decodeWavHeader]
      split_ifs with hc
      · simp only [Option.some.injEq, WavHeader.mk.injEq]
        and_intros <;> first | omega | rfl | trivial
      · exfalso
        apply hc
        have hcr : numChannels % 256 + 256 * (numChannels / 256 % 256) = numChannels := by
          omega
        have hpr : bitsPerSample % 256 + 256 * (bitsPerSample / 256 % 256) = bitsPerSample := by
          omega
        refine ⟨rfl, rfl, rfl, rfl, by norm_num, by norm_num, by simp; omega,
          by simp; omega, ?_⟩
        rw [hcr, hpr]
        omega
    rw [hmap] at hdec
    exact hdec

/-- Witness for `encodeWAV_roundtrip` on a concrete two-byte payload with the
configuration the client uses (48000 Hz, 1 channel, 16 bits). -/
theorem encodeWAV_roundtrip_witness :
    (∀ b ∈ [1, 2], b < 256) ∧ 8 ∣ 1 * 16 ∧
    decodeWavHeader (encodeWAV [1, 2] 48000 1 16) = some ⟨48000, 1, 16, [1, 2]⟩ :=
  ⟨by decide, by decide,
    (encodeWAV_roundtrip [1, 2] 48000 1 16 (by norm_num) (by norm_num) (by norm_num)
      (by norm_num) (by norm_num) (by norm_num) (by norm_num)
      (by decide)).2.2.2.2.2⟩

/-! ## Playback queue (`playNextInQueue` / `queueAudio` in
`src/src/websocket-client.tsx`)

JS source:
```
const playNextInQueue = async () => {
  if (audioQueueRef.current.length === 0 || isPlayingRef.current) return;
  isPlayingRef.current = true;
  const audioData = audioQueueRef.current.shift();
  try {
    ... decode (await decodeAudioData) ...
    source.onended = async () => {
      isPlayingRef.current = false;
      await playNextInQueue();
    };
    source.start();
  } catch (err) {
    console.error("Error playing audio:", err);
    isPlayingRef.current = false;
    await playNextInQueue();
  }
};
const queueAudio = async (audioData) => {
  audioQueueRef.current.push(audioData);
  if (!isPlayingRef.current) await playNextInQueue();
};
```
The embedding keeps the queue and the `isPlaying` flag exactly as in the
source and adds ghost fields that record observable history: payloads are
abstracted to `Nat` identifiers, `inFlight` holds the entries whose
asynchronous decode/playback is pending (a list, so that single-flight is a
provable invariant rather than a typing artifact) with a phase marking
whether `decodeAudioData` is still pending (`decoding`) or `source.start()`
has run (`playing`), `enqueueLog`/`dequeueLog`/`playLog` record the order of
`queueAudio` calls, of dequeues, and of play starts, and `errCount` counts
caught decode/playback errors.  Each JS callback runs synchronously up to its
first `await` (which lies past every flag / queue mutation), so each event is
one atomic step. -/

inductive Phase
  | decoding
  | playing
deriving Repr, DecidableEq

structure AudioState where
  audioQueue : List Nat
  isPlaying : Bool
  inFlight : List (Nat × Phase)
  enqueueLog : List Nat
  dequeueLog : List Nat
  playLog : List Nat
  errCount : Nat
deriving Repr, DecidableEq

def initAudio : AudioState :=
  { audioQueue := [], isPlaying := false, inFlight := [], enqueueLog := [],
    dequeueLog := [], playLog := [], errCount := 0 }

/-- `playNextInQueue` up to its first suspension: return unless the queue is
non-empty and nothing is playing; otherwise set the flag, shift the front
entry and start its asynchronous decode. -/
def playNextInQueue (s : AudioState) : AudioState :=
  match s.audioQueue, s.isPlaying with
  | [], _ => s
  | _ :: _, true => s
  | d :: rest, false =>
    { s with audioQueue := rest, isPlaying := true,
             inFlight := s.inFlight ++ [(d, Phase.decoding)],
             dequeueLog := s.dequeueLog ++ [d] }

/-- `queueAudio`: push, then start the worker when nothing is playing. -/
def queueAudio (s : AudioState) (d : Nat) : AudioState :=
  let s1 := { s with audioQueue := s.audioQueue ++ [d],
                     enqueueLog := s.enqueueLog ++ [d] }
  if s1.isPlaying then s1 else playNextInQueue s1

/-- The asynchronous events of the playback queue: a `queueAudio` call, the
successful decode of the in-flight entry (after which `source.start()` runs,
i.e. the play starts), a decode/playback failure (the `catch` branch), and the
`onended` callback. -/
inductive AEv
  | enqueue (d : Nat)
  | decodeOk
  | decodeFail
  | ended
deriving Repr, DecidableEq

def stepA (s : AudioState) : AEv → AudioState
  | AEv.enqueue d => queueAudio s d
  | AEv.decodeOk =>
    match s.inFlight with
    | (d, Phase.decoding) :: rest =>
      { s with inFlight := (d, Phase.playing) :: rest, playLog := s.playLog ++ [d] }
    | _ => s
  | AEv.decodeFail =>
    match s.inFlight with
    | (_, Phase.decoding) :: rest =>
      playNextInQueue { s with inFlight := rest, isPlaying := false,
                               errCount := s.errCount + 1 }
    | _ => s
  | AEv.ended =>
    match s.inFlight with
    | (_, Phase.playing) :: rest =>
      playNextInQueue { s with inFlight := rest, isPlaying := false }
    | _ => s

def runA (evs : List AEv) : AudioState :=
  evs.foldl stepA initAudio

/-- The payloads of in-flight entries still in the decoding phase. -/
def decodingOf (l : List (Nat × Phase)) : List Nat :=
  l.filterMap fun e => if e.2 = Phase.decoding then some e.1 else none

/-- Invariant of the playback queue: at most one entry is in flight, the
flag tracks in-flight non-emptiness, every enqueued payload is either already
dequeued or still queued (in order), and — as long as no error occurred —
the dequeued entries are exactly the played ones followed by the entry still
decoding. -/
structure AInv (s : AudioState) : Prop where
  flight_le_one : s.inFlight.length ≤ 1
  playing_iff : s.isPlaying = true ↔ s.inFlight ≠ []
  enq_eq : s.enqueueLog = s.dequeueLog ++ s.audioQueue
  deq_eq : s.errCount = 0 → s.dequeueLog = s.playLog ++ decodingOf s.inFlight


theorem AInv_playNextInQueue (s : AudioState) (hf : s.inFlight = [])
    (hp : s.isPlaying = false)
    (h3 : s.enqueueLog = s.dequeueLog ++ s.audioQueue)
    (h4 : s.errCount = 0 → s.dequeueLog = s.playLog ++ decodingOf s.inFlight) :
    AInv (playNextInQueue s) := by
  cases hq : s.audioQueue with
  | nil =>
    have he : playNextInQueue s = s := by
      simp [playNextInQueue, hq]
    rw [he]
    exact ⟨by simp [hf], by simp [hp, hf], h3, h4⟩
  | cons d rest =>
    have he : playNextInQueue s = { s with audioQueue := rest, isPlaying := true, inFlight := s.inFlight ++ [(d, Phase.decoding)], dequeueLog := s.dequeueLog ++ [d] } := by
      simp [playNextInQueue, hq, hp]
    rw [he]
    refine ⟨by simp [hf], by simp [hf], ?_, ?_⟩
    · show s.enqueueLog = s.dequeueLog ++ [d] ++ rest
      rw [h3, hq]
      simp
    · intro h0
      have hd := h4 h0
      rw [hf] at hd
      simp [decodingOf] at hd
      show s.dequeueLog ++ [d] = s.playLog ++ decodingOf (s.inFlight ++ [(d, Phase.decoding)])
      simp [hf, decodingOf, hd]

theorem AInv_step (s : AudioState) (h : AInv s) (e : AEv) : AInv (stepA s e) := by
  obtain ⟨h1, h2, h3, h4⟩ := h
  cases e with
  | enqueue d =>
    show AInv (queueAudio s d)
    rw [queueAudio]
    by_cases hp : s.isPlaying = true
    · simp only [hp, if_pos]
      refine ⟨h1, ⟨fun _ => h2.mp hp, fun _ => rfl⟩, ?_, h4⟩
      show s.enqueueLog ++ [d] = s.dequeueLog ++ (s.audioQueue ++ [d])
      rw [h3, List.append_assoc]
    · have hpf : s.isPlaying = false := by
        cases hb : s.isPlaying
        · rfl
        · exact absurd hb hp
      have hf : s.inFlight = [] := by
        by_contra hc
        exact hp (h2.mpr hc)
      simp only [hpf, Bool.false_eq_true, if_neg, ite_false]
      refine AInv_playNextInQueue _ (by simpa using hf) rfl ?_ ?_
      · show s.enqueueLog ++ [d] = s.dequeueLog ++ (s.audioQueue ++ [d])
        rw [h3, List.append_assoc]
      · simpa using h4
  | decodeOk =>
    cases hfl : s.inFlight with
    | nil =>
      have he : stepA s AEv.decodeOk = s := by
        simp [stepA, hfl]
      rw [he]
      exact ⟨h1, h2, h3, h4⟩
    | cons hd tl =>
      obtain ⟨d, ph⟩ := hd
      have htl : tl = [] := by
        rw [hfl] at h1
        simp only [List.length_cons] at h1
        exact List.eq_nil_of_length_eq_zero (by omega)
      cases ph with
      | decoding =>
        have he : stepA s AEv.decodeOk = { s with inFlight := (d, Phase.playing) :: tl, playLog := s.playLog ++ [d] } := by
          simp [stepA, hfl]
        rw [he]
        refine ⟨by simp [htl], ?_, h3, ?_⟩
        · constructor
          · intro _
            simp
          · intro _
            exact h2.mpr (by simp [hfl])
        · intro h0
          have hd4 := h4 h0
          rw [hfl, htl] at hd4
          simp [decodingOf] at hd4
          show s.dequeueLog = s.playLog ++ [d] ++ decodingOf ((d, Phase.playing) :: tl)
          simp [htl, decodingOf, hd4]
      | playing =>
        have he : stepA s AEv.decodeOk = s := by
          simp [stepA, hfl]
        rw [he]
        exact ⟨h1, h2, h3, h4⟩
  | decodeFail =>
    cases hfl : s.inFlight with
    | nil =>
      have he : stepA s AEv.decodeFail = s := by
        simp [stepA, hfl]
      rw [he]
      exact ⟨h1, h2, h3, h4⟩
    | cons hd tl =>
      obtain ⟨d, ph⟩ := hd
      have htl : tl = [] := by
        rw [hfl] at h1
        simp only [List.length_cons] at h1
        exact List.eq_nil_of_length_eq_zero (by omega)
      cases ph with
      | decoding =>
        have he : stepA s AEv.decodeFail = playNextInQueue { s with inFlight := tl, isPlaying := false, errCount := s.errCount + 1 } := by
          simp [stepA, hfl]
        rw [he]
        refine AInv_playNextInQueue _ (by simpa using htl) (by simp) ?_ ?_
        · simpa using h3
        · intro h0
          simp at h0
      | playing =>
        have he : stepA s AEv.decodeFail = s := by
          simp [stepA, hfl]
        rw [he]
        exact ⟨h1, h2, h3, h4⟩
  | ended =>
    cases hfl : s.inFlight with
    | nil =>
      have he : stepA s AEv.ended = s := by
        simp [stepA, hfl]
      rw [he]
      exact ⟨h1, h2, h3, h4⟩
    | cons hd tl =>
      obtain ⟨d, ph⟩ := hd
      have htl : tl = [] := by
        rw [hfl] at h1
        simp only [List.length_cons] at h1
        exact List.eq_nil_of_length_eq_zero (by omega)
      cases ph with
      | decoding =>
        have he : stepA s AEv.ended = s := by
          simp [stepA, hfl]
        rw [he]
        exact ⟨h1, h2, h3, h4⟩
      | playing =>
        have he : stepA s AEv.ended = playNextInQueue { s with inFlight := tl, isPlaying := false } := by
          simp [stepA, hfl]
        rw [he]
        refine AInv_playNextInQueue _ (by simpa using htl) (by simp) ?_ ?_
        · simpa using h3
        · intro h0
          have hd4 := h4 h0
          rw [hfl, htl] at hd4
          simpa [decodingOf, htl] using hd4

theorem AInv_foldl (evs : List AEv) :
    ∀ s : AudioState, AInv s → AInv (evs.foldl stepA s) := by
  induction evs with
  | nil =>
    intro s hs
    simpa using hs
  | cons e rest ih =>
    intro s hs
    simpa using ih (stepA s e) (AInv_step s hs e)

theorem AInv_runA (evs : List AEv) : AInv (runA evs) := by
  refine AInv_foldl evs initAudio ?_
  exact ⟨by simp [initAudio], by simp [initAudio], by simp [initAudio], by simp [initAudio, decodingOf]⟩

/-- Claim C1: playback single-flight and FIFO ordering.  For every sequence of
`queueAudio` calls and every interleaving of asynchronous decode/playback
completions: at most one entry is ever being decoded or played; the dequeue
order is a prefix of the enqueue order; when no decode/playback error has
occurred the play-start order is a prefix of the enqueue order, and once the
queue has drained and nothing is in flight the play-start order is exactly the
enqueue order `p1..pN`. -/
theorem playback_single_flight_fifo (evs : List AEv) :
    (runA evs).inFlight.length ≤ 1
    ∧ (∃ pending, (runA evs).dequeueLog ++ pending = (runA evs).enqueueLog)
    ∧ ((runA evs).errCount = 0 →
        ∃ pending, (runA evs).playLog ++ pending = (runA evs).enqueueLog)
    ∧ ((runA evs).errCount = 0 → (runA evs).audioQueue = [] →
        (runA evs).inFlight = [] →
        (runA evs).playLog = (runA evs).enqueueLog) := by
  obtain ⟨h1, h2, h3, h4⟩ := AInv_runA evs
  refine ⟨h1, ⟨(runA evs).audioQueue, h3.symm⟩, ?_, ?_⟩
  · intro h0
    refine ⟨decodingOf (runA evs).inFlight ++ (runA evs).audioQueue, ?_⟩
    rw [← List.append_assoc, ← h4 h0]
    exact h3.symm
  · intro h0 hq hif
    rw [h3, hq, h4 h0, hif]
    simp [decodingOf]

/-- Witness for `playback_single_flight_fifo`: two payloads enqueued and
played to completion come out in enqueue order. -/
theorem playback_single_flight_fifo_witness :
    (runA [AEv.enqueue 1, AEv.enqueue 2, AEv.decodeOk, AEv.ended, AEv.decodeOk, AEv.ended]).errCount = 0
    ∧ (runA [AEv.enqueue 1, AEv.enqueue 2, AEv.decodeOk, AEv.ended, AEv.decodeOk, AEv.ended]).playLog = [1, 2]
    ∧ (runA [AEv.enqueue 1, AEv.enqueue 2, AEv.decodeOk, AEv.ended, AEv.decodeOk, AEv.ended]).playLog
        = (runA [AEv.enqueue 1, AEv.enqueue 2, AEv.decodeOk, AEv.ended, AEv.decodeOk, AEv.ended]).enqueueLog :=
  ⟨by decide, by decide,
    (playback_single_flight_fifo
      [AEv.enqueue 1, AEv.enqueue 2, AEv.decodeOk, AEv.ended, AEv.decodeOk, AEv.ended]).2.2.2
      (by decide) (by decide) (by decide)⟩

/-- Claim C8: playback error resilience.  When the in-flight entry fails to
decode/play, the failure is counted (reported), the entry never reaches the
play log, nothing is re-enqueued (no retry), and the worker clears the flag
and advances: with an empty queue it goes idle, otherwise it immediately
dequeues the next pending entry. -/
theorem playback_error_resilience (s : AudioState) (d : Nat)
    (h : s.inFlight = [(d, Phase.decoding)]) :
    (stepA s AEv.decodeFail).errCount = s.errCount + 1
    ∧ (stepA s AEv.decodeFail).playLog = s.playLog
    ∧ (stepA s AEv.decodeFail).enqueueLog = s.enqueueLog
    ∧ (s.audioQueue = [] → (stepA s AEv.decodeFail).inFlight = []
        ∧ (stepA s AEv.decodeFail).isPlaying = false)
    ∧ (∀ x rest, s.audioQueue = x :: rest →
        (stepA s AEv.decodeFail).inFlight = [(x, Phase.decoding)]
        ∧ (stepA s AEv.decodeFail).isPlaying = true
        ∧ (stepA s AEv.decodeFail).audioQueue = rest
        ∧ (stepA s AEv.decodeFail).dequeueLog = s.dequeueLog ++ [x]) := by
  have hstep : stepA s AEv.decodeFail = playNextInQueue { s with inFlight := [], isPlaying := false, errCount := s.errCount + 1 } := by
    simp [stepA, h]
  rw [hstep]
  cases hq : s.audioQueue with
  | nil =>
    have he : playNextInQueue { s with audioQueue := ([] : List Nat), isPlaying := false, inFlight := ([] : List (Nat × Phase)), errCount := s.errCount + 1 } = { s with audioQueue := ([] : List Nat), isPlaying := false, inFlight := ([] : List (Nat × Phase)), errCount := s.errCount + 1 } := by
      simp [playNextInQueue]
    rw [he]
    refine ⟨rfl, rfl, rfl, fun _ => ⟨rfl, rfl⟩, ?_⟩
    intro x rest hxr
    exact absurd hxr (by simp)
  | cons x rest =>
    have he : playNextInQueue { s with audioQueue := x :: rest, isPlaying := false, inFlight := ([] : List (Nat × Phase)), errCount := s.errCount + 1 } = { s with audioQueue := rest, isPlaying := true, inFlight := [(x, Phase.decoding)], dequeueLog := s.dequeueLog ++ [x], errCount := s.errCount + 1 } := by
      simp [playNextInQueue]
    rw [he]
    refine ⟨rfl, rfl, rfl, ?_, ?_⟩
    · intro h0
      exact absurd h0 (by simp)
    · intro y yrest hxr
      cases hxr
      exact ⟨rfl, rfl, rfl, rfl⟩

/-- Witness for `playback_error_resilience` on a concrete state: entry 3 is
decoding, entry 7 is queued; after the failure the worker is decoding 7. -/
theorem playback_error_resilience_witness :
    ({ audioQueue := [7], isPlaying := true, inFlight := [(3, Phase.decoding)], enqueueLog := [3, 7], dequeueLog := [3], playLog := [], errCount := 0 } : AudioState).inFlight = [(3, Phase.decoding)]
    ∧ (stepA { audioQueue := [7], isPlaying := true, inFlight := [(3, Phase.decoding)], enqueueLog := [3, 7], dequeueLog := [3], playLog := [], errCount := 0 } AEv.decodeFail).inFlight = [(7, Phase.decoding)]
    ∧ (stepA { audioQueue := [7], isPlaying := true, inFlight := [(3, Phase.decoding)], enqueueLog := [3, 7], dequeueLog := [3], playLog := [], errCount := 0 } AEv.decodeFail).errCount = 1 :=
  ⟨by decide,
    ((playback_error_resilience { audioQueue := [7], isPlaying := true, inFlight := [(3, Phase.decoding)], enqueueLog := [3, 7], dequeueLog := [3], playLog := [], errCount := 0 } 3 (by decide)).2.2.2.2 7 [] (by decide)).1,
    (playback_error_resilience { audioQueue := [7], isPlaying := true, inFlight := [(3, Phase.decoding)], enqueueLog := [3, 7], dequeueLog := [3], playLog := [], errCount := 0 } 3 (by decide)).1⟩

/-! ## Websocket session (`useWebSocketAudio` in `src/src/websocket-client.tsx`)

The session owns the socket (`wsRef` with the browser readyState), the mute
flag (`isMutedRef`, mirrored by the `isMuted` React state), the capture
pipeline (`processorRef`/`streamRef`, abstracted to the `recording` flag and
the `inputQueueRef` frame queue), and the playback queue embedded above.
Frames and audio payloads are abstracted to `Nat` identifiers (base64 and the
`Float32Array` contents play no role in the claims).  Ghost fields:
`sentLog` records the wire messages actually transmitted (a browser socket
transmits only in the OPEN state; `send` on a CONNECTING socket throws
`InvalidStateError`, and on a CLOSING/CLOSED socket discards the data),
`messages` mirrors the `messages` React state, `readyReceived` records that a
`websocket_ready` message was dispatched, and `threw` records an exception
escaping a handler.  One socket per session is modelled: `connect` acts from
the no-socket state. -/

inductive WsState
  | noWs
  | connecting
  | opened
  | closedRef
deriving Repr, DecidableEq

inductive OutMsg
  | config
  | audio (d : Nat)
  | stop
deriving Repr, DecidableEq

inductive InMsg
  | ready
  | audio (d : Nat)
  | jsonTranscript
  | other
deriving Repr, DecidableEq

inductive ErrKind
  | parseError
  | wsError
  | recordingError
  | connectError
deriving Repr, DecidableEq

structure Session where
  ws : WsState
  isConnected : Bool
  isMuted : Bool
  recording : Bool
  inputQueue : List Nat
  playback : AudioState
  sentLog : List OutMsg
  messages : List InMsg
  error : Option ErrKind
  readyReceived : Bool
  threw : Bool
deriving Repr, DecidableEq

def initSession : Session :=
  { ws := WsState.noWs, isConnected := false, isMuted := false,
    recording := false, inputQueue := [], playback := initAudio, sentLog := [],
    messages := [], error := none, readyReceived := false, threw := false }

/-- The wire messages emitted by one run of the `processInputQueue` while
loop over the queued frames: each shifted frame is sent only when the socket
readyState is OPEN, and is discarded otherwise. -/
def drainInput (ws : WsState) (q : List Nat) : List OutMsg :=
  match q with
  | [] => []
  | d :: rest => (if ws = WsState.opened then [OutMsg.audio d] else []) ++ drainInput ws rest

/-- `processInputQueue`: while the input queue is non-empty and the session
is not muted, shift a frame and send it when the socket is open.  The loop is
synchronous, so the mute flag is constant throughout it and a non-muted call
always empties the queue. -/
def processInputQueue (s : Session) : Session :=
  if s.isMuted then s
  else { s with inputQueue := [], sentLog := s.sentLog ++ drainInput s.ws s.inputQueue }

/-- `stopRecording`: disconnect the processor and stop the tracks (recording
off), clear the input queue, and set both mute flags. -/
def stopRecording (s : Session) : Session :=
  { s with recording := false, inputQueue := [], isMuted := true }

/-- The asynchronous events of a session: `connect()` (socket created, now
CONNECTING), the socket open / close events, an inbound message that parses to
`websocket_ready` (with `granted` telling whether `getUserMedia` succeeds in
the `startRecording` it triggers), inbound audio / other messages, an inbound
message that fails to parse, an `onaudioprocess` capture frame, the
`toggleMute()` control, the `disconnect()` control, and the three playback
completions from the queue model. -/
inductive SEv
  | connect
  | wsOpen
  | recvReady (granted : Bool)
  | recvAudio (d : Nat)
  | recvOther
  | recvBad
  | frame (d : Nat)
  | toggleMute
  | disconnect
  | wsClose
  | decodeOk
  | decodeFail
  | ended
deriving Repr, DecidableEq

def stepS (s : Session) : SEv → Session
  | SEv.connect =>
    if s.ws = WsState.noWs then { s with ws := WsState.connecting } else s
  | SEv.wsOpen =>
    if s.ws = WsState.connecting then
      { s with ws := WsState.opened, isConnected := true, error := none, sentLog := s.sentLog ++ [OutMsg.config] }
    else s
  | SEv.recvReady granted =>
    if s.ws = WsState.opened then
      if granted then
        { s with messages := s.messages ++ [InMsg.ready], readyReceived := true, recording := true, isMuted := false }
      else
        { s with messages := s.messages ++ [InMsg.ready], readyReceived := true, error := some ErrKind.recordingError }
    else s
  | SEv.recvAudio d =>
    if s.ws = WsState.opened then
      { s with messages := s.messages ++ [InMsg.audio d], playback := queueAudio s.playback d }
    else s
  | SEv.recvOther =>
    if s.ws = WsState.opened then { s with messages := s.messages ++ [InMsg.other] } else s
  | SEv.recvBad =>
    if s.ws = WsState.opened then { s with error := some ErrKind.parseError } else s
  | SEv.frame d =>
    if s.recording = false then s
    else if s.isMuted then s
    else processInputQueue { s with inputQueue := s.inputQueue ++ [d] }
  | SEv.toggleMute => { s with isMuted := !s.isMuted }
  | SEv.disconnect =>
    match s.ws with
    | WsState.connecting => { s with threw := true }
    | WsState.noWs => stopRecording { s with isConnected := false }
    | WsState.opened => stopRecording { s with sentLog := s.sentLog ++ [OutMsg.stop], ws := WsState.noWs, isConnected := false }
    | WsState.closedRef => stopRecording { s with ws := WsState.noWs, isConnected := false }
  | SEv.wsClose =>
    if s.ws = WsState.connecting ∨ s.ws = WsState.opened then
      stopRecording { s with ws := WsState.closedRef, isConnected := false }
    else s
  | SEv.decodeOk => { s with playback := stepA s.playback AEv.decodeOk }
  | SEv.decodeFail => { s with playback := stepA s.playback AEv.decodeFail }
  | SEv.ended => { s with playback := stepA s.playback AEv.ended }

def runS (evs : List SEv) : Session :=
  evs.foldl stepS initSession

theorem drainInput_not_opened (ws : WsState) (q : List Nat) (h : ws ≠ WsState.opened) :
    drainInput ws q = [] := by
  induction q with
  | nil => rfl
  | cons d rest ih => simp [drainInput, h, ih]

theorem drainInput_opened (q : List Nat) :
    drainInput WsState.opened q = q.map OutMsg.audio := by
  induction q with
  | nil => rfl
  | cons d rest ih => simp [drainInput, ih]

theorem head_append_config (l m : List OutMsg) (h : l.head? = some OutMsg.config) :
    (l ++ m).head? = some OutMsg.config := by
  cases l with
  | nil => simp at h
  | cons a t => simpa using h

theorem stepS_frame_not_recording (s : Session) (d : Nat) (hr : s.recording = false) :
    stepS s (SEv.frame d) = s := by
  simp [stepS, hr]

theorem stepS_frame_muted (s : Session) (d : Nat) (hm : s.isMuted = true) :
    stepS s (SEv.frame d) = s := by
  simp [stepS, hm]

theorem stepS_frame_live (s : Session) (d : Nat) (hr : s.recording = true)
    (hm : s.isMuted = false) :
    stepS s (SEv.frame d) = { s with inputQueue := [], sentLog := s.sentLog ++ drainInput s.ws (s.inputQueue ++ [d]) } := by
  simp [stepS, hr, hm, processInputQueue]

/-- Handshake invariant of the session: the first message ever put on the
wire is the `AudioConfigStart` handshake, an open socket means the handshake
has been sent, and the capture pipeline only runs after a `Ready` message was
received. -/
def SInv (s : Session) : Prop :=
  (s.sentLog = [] ∨ s.sentLog.head? = some OutMsg.config)
  ∧ (s.ws = WsState.opened → s.sentLog ≠ [])
  ∧ (s.recording = true → s.readyReceived = true)

theorem SInv_step (s : Session) (h : SInv s) (e : SEv) : SInv (stepS s e) := by
  obtain ⟨h1, h2, h3⟩ := h
  cases e with
  | connect =>
    by_cases hw : s.ws = WsState.noWs
    · simp only [stepS, hw, if_pos]
      exact ⟨h1, by intro hc; exact absurd hc (by simp), h3⟩
    · simp only [stepS, if_neg hw]
      exact ⟨h1, h2, h3⟩
  | wsOpen =>
    by_cases hw : s.ws = WsState.connecting
    · simp only [stepS, hw, if_pos]
      refine ⟨?_, by simp, h3⟩
      rcases h1 with he | hh
      · right
        simp [he]
      · right
        exact head_append_config _ _ hh
    · simp only [stepS, if_neg hw]
      exact ⟨h1, h2, h3⟩
  | recvReady granted =>
    by_cases hw : s.ws = WsState.opened
    · cases granted with
      | true =>
        simp only [stepS, hw, if_pos, if_true]
        exact ⟨h1, fun _ => h2 hw, fun _ => rfl⟩
      | false =>
        simp only [stepS, hw, if_pos, if_false]
        exact ⟨h1, fun _ => h2 hw, fun _ => rfl⟩
    · simp only [stepS, if_neg hw]
      exact ⟨h1, h2, h3⟩
  | recvAudio d =>
    by_cases hw : s.ws = WsState.opened
    · simp only [stepS, hw, if_pos]
      exact ⟨h1, fun _ => h2 hw, h3⟩
    · simp only [stepS, if_neg hw]
      exact ⟨h1, h2, h3⟩
  | recvOther =>
    by_cases hw : s.ws = WsState.opened
    · simp only [stepS, hw, if_pos]
      exact ⟨h1, fun _ => h2 hw, h3⟩
    · simp only [stepS, if_neg hw]
      exact ⟨h1, h2, h3⟩
  | recvBad =>
    by_cases hw : s.ws = WsState.opened
    · simp only [stepS, hw, if_pos]
      exact ⟨h1, fun _ => h2 hw, h3⟩
    · simp only [stepS, if_neg hw]
      exact ⟨h1, h2, h3⟩
  | frame d =>
    by_cases hr : s.recording = false
    · rw [stepS_frame_not_recording s d hr]
      exact ⟨h1, h2, h3⟩
    · have hrt : s.recording = true := by
        cases hb : s.recording
        · exact absurd hb hr
        · rfl
      by_cases hm : s.isMuted = true
      · rw [stepS_frame_muted s d hm]
        exact ⟨h1, h2, h3⟩
      · have hmf : s.isMuted = false := by
          cases hb : s.isMuted
          · rfl
          · exact absurd hb hm
        rw [stepS_frame_live s d hrt hmf]
        by_cases hw : s.ws = WsState.opened
        · refine ⟨?_, ?_, h3⟩
          · right
            show (s.sentLog ++ drainInput s.ws (s.inputQueue ++ [d])).head? = some OutMsg.config
            rcases h1 with he | hh
            · exact absurd he (h2 hw)
            · exact head_append_config _ _ hh
          · intro _
            show s.sentLog ++ drainInput s.ws (s.inputQueue ++ [d]) ≠ []
            intro hc
            exact h2 hw (List.append_eq_nil.mp hc).1
        · have hde := drainInput_not_opened s.ws (s.inputQueue ++ [d]) hw
          refine ⟨?_, ?_, h3⟩
          · show s.sentLog ++ drainInput s.ws (s.inputQueue ++ [d]) = [] ∨ (s.sentLog ++ drainInput s.ws (s.inputQueue ++ [d])).head? = some OutMsg.config
            rw [hde]
            simpa using h1
          · intro hww
            exact absurd hww hw
  | toggleMute =>
    simp only [stepS]
    exact ⟨h1, h2, h3⟩
  | disconnect =>
    cases hw : s.ws with
    | connecting =>
      simp only [stepS, hw]
      exact ⟨h1, by intro hc; exact absurd hc (by simp), h3⟩
    | noWs =>
      simp only [stepS, hw, stopRecording]
      exact ⟨h1, by intro hc; exact absurd hc (by simp), by intro hc; exact absurd hc (by simp)⟩
    | opened =>
      simp only [stepS, hw, stopRecording]
      refine ⟨?_, by intro hc; exact absurd hc (by simp), by intro hc; exact absurd hc (by simp)⟩
      rcases h1 with he | hh
      · exact absurd he (h2 hw)
      · right
        exact head_append_config _ _ hh
    | closedRef =>
      simp only [stepS, hw, stopRecording]
      exact ⟨h1, by intro hc; exact absurd hc (by simp), by intro hc; exact absurd hc (by simp)⟩
  | wsClose =>
    by_cases hw : s.ws = WsState.connecting ∨ s.ws = WsState.opened
    · simp only [stepS, hw, if_pos, stopRecording]
      exact ⟨h1, by intro hc; exact absurd hc (by simp), by intro hc; exact absurd hc (by simp)⟩
    · simp only [stepS, if_neg hw]
      exact ⟨h1, h2, h3⟩
  | decodeOk =>
    simp only [stepS]
    exact ⟨h1, h2, h3⟩
  | decodeFail =>
    simp only [stepS]
    exact ⟨h1, h2, h3⟩
  | ended =>
    simp only [stepS]
    exact ⟨h1, h2, h3⟩

theorem SInv_foldl (evs : List SEv) :
    ∀ s : Session, SInv s → SInv (evs.foldl stepS s) := by
  induction evs with
  | nil =>
    intro s hs
    simpa using hs
  | cons e rest ih =>
    intro s hs
    simpa using ih (stepS s e) (SInv_step s hs e)

theorem SInv_runS (evs : List SEv) : SInv (runS evs) := by
  refine SInv_foldl evs initSession ?_
  exact ⟨Or.inl rfl, by intro hc; exact absurd hc (by simp [initSession]), by intro hc; exact absurd hc (by simp [initSession])⟩

/-- Claim C2: handshake ordering.  In every session run: the wire log is
empty or starts with the `AudioConfigStart` message (the open handler sends it
synchronously and nothing can transmit before the socket is open), an open
socket implies the handshake has been sent, and the capture pipeline
(`startRecording`) runs only after a `Ready` message has been received. -/
theorem handshake_ordering (evs : List SEv) :
    ((runS evs).sentLog = [] ∨ (runS evs).sentLog.head? = some OutMsg.config)
    ∧ ((runS evs).ws = WsState.opened → (runS evs).sentLog ≠ [])
    ∧ ((runS evs).recording = true → (runS evs).readyReceived = true) :=
  SInv_runS evs

/-- Witness for `handshake_ordering` on the run connect/open/ready. -/
theorem handshake_ordering_witness :
    (runS [SEv.connect, SEv.wsOpen, SEv.recvReady true]).ws = WsState.opened
    ∧ (runS [SEv.connect, SEv.wsOpen, SEv.recvReady true]).sentLog ≠ []
    ∧ (runS [SEv.connect, SEv.wsOpen, SEv.recvReady true]).recording = true
    ∧ (runS [SEv.connect, SEv.wsOpen, SEv.recvReady true]).readyReceived = true :=
  ⟨by decide,
    (handshake_ordering [SEv.connect, SEv.wsOpen, SEv.recvReady true]).2.1 (by decide),
    by decide,
    (handshake_ordering [SEv.connect, SEv.wsOpen, SEv.recvReady true]).2.2 (by decide)⟩

/-- Claim C3: mute correctness.  While the mute flag is set, a capture frame
leaves the session completely unchanged (dropped before encoding, so no
`websocket_audio` message is sent no matter how many frames arrive); after the
flag is cleared, the next frame resumes transmission, and everything appended
to the wire log is an `Audio` message — no new handshake (`config`) and no
`stop` is sent. -/
theorem mute_correctness :
    (∀ s : Session, ∀ d : Nat, s.isMuted = true → stepS s (SEv.frame d) = s)
    ∧ (∀ s : Session, ∀ fs : List Nat, s.isMuted = true →
        (fs.map SEv.frame).foldl stepS s = s)
    ∧ (∀ s : Session, ∀ d : Nat, s.isMuted = true → s.recording = true →
        s.ws = WsState.opened →
        (stepS (stepS s SEv.toggleMute) (SEv.frame d)).sentLog
          = s.sentLog ++ (s.inputQueue ++ [d]).map OutMsg.audio
        ∧ OutMsg.config ∉ (s.inputQueue ++ [d]).map OutMsg.audio
        ∧ OutMsg.stop ∉ (s.inputQueue ++ [d]).map OutMsg.audio) := by
  refine ⟨?_, ?_, ?_⟩
  · intro s d hm
    exact stepS_frame_muted s d hm
  · intro s fs hm
    induction fs with
    | nil => rfl
    | cons f rest ih =>
      simp only [List.map_cons, List.foldl_cons]
      rw [stepS_frame_muted s f hm]
      exact ih
  · intro s d hm hr hw
    have hm2 : (stepS s SEv.toggleMute).isMuted = false := by
      simp [stepS, hm]
    have hr2 : (stepS s SEv.toggleMute).recording = true := hr
    rw [stepS_frame_live (stepS s SEv.toggleMute) d hr2 hm2]
    refine ⟨?_, by simp, by simp⟩
    show s.sentLog ++ drainInput s.ws (s.inputQueue ++ [d])
        = s.sentLog ++ (s.inputQueue ++ [d]).map OutMsg.audio
    rw [hw, drainInput_opened]

/-- Witness for `mute_correctness` on a concrete muted session with one
queued frame. -/
theorem mute_correctness_witness :
    ({ initSession with isMuted := true, recording := true, ws := WsState.opened, inputQueue := [5] } : Session).isMuted = true
    ∧ stepS { initSession with isMuted := true, recording := true, ws := WsState.opened, inputQueue := [5] } (SEv.frame 9)
        = { initSession with isMuted := true, recording := true, ws := WsState.opened, inputQueue := [5] }
    ∧ (stepS (stepS { initSession with isMuted := true, recording := true, ws := WsState.opened, inputQueue := [5] } SEv.toggleMute) (SEv.frame 9)).sentLog
        = ({ initSession with isMuted := true, recording := true, ws := WsState.opened, inputQueue := [5] } : Session).sentLog
          ++ (({ initSession with isMuted := true, recording := true, ws := WsState.opened, inputQueue := [5] } : Session).inputQueue ++ [9]).map OutMsg.audio :=
  ⟨by decide,
    mute_correctness.1 { initSession with isMuted := true, recording := true, ws := WsState.opened, inputQueue := [5] } 9 (by decide),
    (mute_correctness.2.2 { initSession with isMuted := true, recording := true, ws := WsState.opened, inputQueue := [5] } 9 (by decide) (by decide) (by decide)).1⟩

/-- Claim C7 counterexample: after connect/open/ready and two received audio
payloads (the first in flight, the second pending), `disconnect()` leaves the
pending playback entry queued and the in-flight playback running — the code
never touches `audioQueueRef`/`isPlayingRef` — so the claim that disconnect
drops all pending playback entries and stops in-flight playback is false.
Moreover a `disconnect()` on a still-connecting socket throws on the
unguarded `send` and tears nothing down. -/
theorem disconnect_claim_counterexample :
    (runS [SEv.connect, SEv.wsOpen, SEv.recvReady true, SEv.recvAudio 1, SEv.recvAudio 2, SEv.disconnect]).playback.audioQueue = [2]
    ∧ (runS [SEv.connect, SEv.wsOpen, SEv.recvReady true, SEv.recvAudio 1, SEv.recvAudio 2, SEv.disconnect]).playback.isPlaying = true
    ∧ (runS [SEv.connect, SEv.wsOpen, SEv.recvReady true, SEv.recvAudio 1, SEv.recvAudio 2, SEv.disconnect]).playback.inFlight = [(1, Phase.decoding)]
    ∧ runS [SEv.connect, SEv.disconnect] = { runS [SEv.connect] with threw := true } := by
  decide

/-- Claim C7 amended: for every `disconnect()` on a session whose transport
is not mid-connect (on a CONNECTING socket the unguarded `send` throws and
nothing is torn down): a `Stop` message is put on the wire exactly when the
transport is open, the capture pipeline is stopped, its input queue is
cleared and the session is muted, the session is marked disconnected and the
transport reference is released — but the pending playback-queue entries are
NOT dropped and any in-flight playback is NOT stopped (the playback state is
untouched). -/
theorem disconnect_behavior_amended (s : Session) (h : s.ws ≠ WsState.connecting) :
    (stepS s SEv.disconnect).sentLog
      = s.sentLog ++ (if s.ws = WsState.opened then [OutMsg.stop] else [])
    ∧ (stepS s SEv.disconnect).recording = false
    ∧ (stepS s SEv.disconnect).inputQueue = []
    ∧ (stepS s SEv.disconnect).isMuted = true
    ∧ (stepS s SEv.disconnect).ws = WsState.noWs
    ∧ (stepS s SEv.disconnect).isConnected = false
    ∧ (stepS s SEv.disconnect).playback = s.playback
    ∧ (stepS s SEv.disconnect).threw = s.threw := by
  cases hw : s.ws with
  | connecting => exact absurd hw h
  | noWs => simp [stepS, hw, stopRecording]
  | opened => simp [stepS, hw, stopRecording]
  | closedRef => simp [stepS, hw, stopRecording]

/-- Witness for `disconnect_behavior_amended` after connect/open. -/
theorem disconnect_behavior_amended_witness :
    (runS [SEv.connect, SEv.wsOpen]).ws ≠ WsState.connecting
    ∧ (stepS (runS [SEv.connect, SEv.wsOpen]) SEv.disconnect).sentLog
        = (runS [SEv.connect, SEv.wsOpen]).sentLog
          ++ (if (runS [SEv.connect, SEv.wsOpen]).ws = WsState.opened then [OutMsg.stop] else [])
    ∧ (stepS (runS [SEv.connect, SEv.wsOpen]) SEv.disconnect).playback
        = (runS [SEv.connect, SEv.wsOpen]).playback :=
  ⟨by decide,
    (disconnect_behavior_amended (runS [SEv.connect, SEv.wsOpen]) (by decide)).1,
    (disconnect_behavior_amended (runS [SEv.connect, SEv.wsOpen]) (by decide)).2.2.2.2.2.2.1⟩

/-- Claim C9: an inbound message that fails to parse does not crash the
session (no exception escapes) and changes nothing but the local error
indicator, which is set to a parse/protocol error; no wire message is sent in
response and the message is dropped (not appended to `messages`). -/
theorem parse_failure_tolerated (s : Session) (h : s.ws = WsState.opened) :
    stepS s SEv.recvBad = { s with error := some ErrKind.parseError }
    ∧ (stepS s SEv.recvBad).sentLog = s.sentLog
    ∧ (stepS s SEv.recvBad).playback = s.playback
    ∧ (stepS s SEv.recvBad).messages = s.messages
    ∧ (stepS s SEv.recvBad).recording = s.recording
    ∧ (stepS s SEv.recvBad).ws = s.ws
    ∧ (stepS s SEv.recvBad).threw = s.threw := by
  have he : stepS s SEv.recvBad = { s with error := some ErrKind.parseError } := by
    simp [stepS, h]
  exact ⟨he, by rw [he], by rw [he], by rw [he], by rw [he], by rw [he], by rw [he]⟩

/-- Witness for `parse_failure_tolerated` after connect/open. -/
theorem parse_failure_tolerated_witness :
    (runS [SEv.connect, SEv.wsOpen]).ws = WsState.opened
    ∧ stepS (runS [SEv.connect, SEv.wsOpen]) SEv.recvBad
        = { runS [SEv.connect, SEv.wsOpen] with error := some ErrKind.parseError } :=
  ⟨by decide, (parse_failure_tolerated (runS [SEv.connect, SEv.wsOpen]) (by decide)).1⟩

/-- Claim C10: mute/lifecycle coupling.  Every stop of the capture pipeline —
from a transport close event or from `disconnect()` (when it does not throw
mid-connect) — sets the mute flag and discards all captured-but-untransmitted
frames, and the capture start triggered by `Ready` resets the mute flag to
false; hence a user-chosen mute setting never survives a stop/start cycle and
after an unexpected transport close the session reports itself muted. -/
theorem mute_lifecycle_coupling (s : Session) :
    ((s.ws = WsState.connecting ∨ s.ws = WsState.opened) →
      (stepS s SEv.wsClose).isMuted = true ∧ (stepS s SEv.wsClose).inputQueue = []
      ∧ (stepS s SEv.wsClose).recording = false)
    ∧ (s.ws ≠ WsState.connecting →
      (stepS s SEv.disconnect).isMuted = true ∧ (stepS s SEv.disconnect).inputQueue = []
      ∧ (stepS s SEv.disconnect).recording = false)
    ∧ (s.ws = WsState.opened →
      (stepS s (SEv.recvReady true)).isMuted = false
      ∧ (stepS s (SEv.recvReady true)).recording = true) := by
  refine ⟨?_, ?_, ?_⟩
  · intro hw
    have he : stepS s SEv.wsClose
        = stopRecording { s with ws := WsState.closedRef, isConnected := false } := by
      show (if s.ws = WsState.connecting ∨ s.ws = WsState.opened
          then stopRecording { s with ws := WsState.closedRef, isConnected := false }
          else s) = stopRecording { s with ws := WsState.closedRef, isConnected := false }
      rw [if_pos hw]
    rw [he]
    exact ⟨rfl, rfl, rfl⟩
  · intro hw
    cases hws : s.ws with
    | connecting => exact absurd hws hw
    | noWs =>
      have he : stepS s SEv.disconnect = stopRecording { s with isConnected := false } := by
        simp [stepS, hws]
      rw [he]
      exact ⟨rfl, rfl, rfl⟩
    | opened =>
      have he : stepS s SEv.disconnect
          = stopRecording { s with sentLog := s.sentLog ++ [OutMsg.stop], ws := WsState.noWs, isConnected := false } := by
        simp [stepS, hws]
      rw [he]
      exact ⟨rfl, rfl, rfl⟩
    | closedRef =>
      have he : stepS s SEv.disconnect
          = stopRecording { s with ws := WsState.noWs, isConnected := false } := by
        simp [stepS, hws]
      rw [he]
      exact ⟨rfl, rfl, rfl⟩
  · intro hw
    have he : stepS s (SEv.recvReady true)
        = { s with messages := s.messages ++ [InMsg.ready], readyReceived := true, recording := true, isMuted := false } := by
      simp [stepS, hw]
    rw [he]
    exact ⟨rfl, rfl⟩

/-- Witness for `mute_lifecycle_coupling` on an open, user-muted session. -/
theorem mute_lifecycle_coupling_witness :
    (stepS { initSession with ws := WsState.opened, isMuted := true, recording := true } SEv.wsClose).isMuted = true
    ∧ (stepS { initSession with ws := WsState.opened, isMuted := true, recording := true } SEv.disconnect).isMuted = true
    ∧ (stepS { initSession with ws := WsState.opened, isMuted := true, recording := true } (SEv.recvReady true)).isMuted = false :=
  ⟨((mute_lifecycle_coupling { initSession with ws := WsState.opened, isMuted := true, recording := true }).1 (by decide)).1,
    ((mute_lifecycle_coupling { initSession with ws := WsState.opened, isMuted := true, recording := true }).2.1 (by decide)).1,
    ((mute_lifecycle_coupling { initSession with ws := WsState.opened, isMuted := true, recording := true }).2.2 (by decide)).1⟩

end WsClient
